import Mathlib

/-!  Verification development for the sliding-window segmentation
inference engine (`SegmSlidingWinInference` in `isaid_eval.py`).

Tensors are modelled shallowly: a tensor is a shape (list of extents)
plus a total data function from index lists to exact rationals
(floating-point values are modelled as exact rationals).  The final
division produces an extended value distinguishing finite quotients
from NaN and the infinities, so that `0/0` at an uncovered pixel is
observable in the model exactly as it is in the code.  Python
exceptions are modelled with an explicit error type: fallible steps
return `Except Err`; the run phase additionally reports the updated
engine state and the number of model invocations performed. -/

namespace IsaidEval

/-- A window `(x1, y1, x2, y2)` in pixel coordinates, half-open on the
high end, as produced by `sliding_window` and consumed by `merge`. -/
structure Window where
  x1 : Nat
  y1 : Nat
  x2 : Nat
  y2 : Nat
deriving DecidableEq, Repr

/-- An n-dimensional tensor: a shape together with a total data function
on index lists (entries outside the shape are junk, never inspected by
the theorems). -/
structure NDTensor where
  shape : List Nat
  data : List Nat → ℚ

/-- An extended floating-point value: a finite rational, NaN, or a
signed infinity.  Used for the entries of the merged result, where the
code performs a true division that can produce NaN/Inf. -/
inductive FVal where
  | fin (q : ℚ)
  | nan
  | inf
  | ninf
deriving DecidableEq, Repr

/-- A tensor of extended values: the type of `merge`'s result. -/
@[ext]
structure FTensor where
  shape : List Nat
  data : List Nat → FVal

/-- IEEE-style division of two finite values: `0/0` is NaN, `a/0` for
`a ≠ 0` is a signed infinity, otherwise the exact quotient. -/
def fdiv (a b : ℚ) : FVal :=
  if b = 0 then if a = 0 then FVal.nan else if 0 < a then FVal.inf else FVal.ninf
  else FVal.fin (a / b)

/-- Pixel `(y, x)` lies inside window `w`: mirrors membership of the
torch slice `[win[1]:win[3], win[0]:win[2]]` for in-extent pixels. -/
abbrev inWin (w : Window) (y x : Nat) : Prop :=
  w.y1 ≤ y ∧ y < w.y2 ∧ w.x1 ≤ x ∧ x < w.x2

/-- One iteration of the count loop:
`res_count[win[1]:win[3], win[0]:win[2]] += 1`. -/
def addCount (cnt : Nat → Nat → ℚ) (w : Window) : Nat → Nat → ℚ :=
  fun y x => if inWin w y x then cnt y x + 1 else cnt y x

/-- One iteration of the sum loop:
`res_img[:, :, win[1]:win[3], win[0]:win[2]] += pred` (viewed at batch
index `bi`, class channel `ci`, absolute pixel `(y, x)`).  Predictions
are assumed shape-consistent with the buffer slice, as the data model
guarantees; torch's in-place broadcast/shape errors for mismatched
predictions are not modelled. -/
def addPred (img : Nat → Nat → Nat → Nat → ℚ) (pw : NDTensor × Window) :
    Nat → Nat → Nat → Nat → ℚ :=
  fun bi ci y x =>
    if inWin pw.2 y x then img bi ci y x + pw.1.data [bi, ci, y - pw.2.y1, x - pw.2.x1]
    else img bi ci y x

/-- The count buffer `res_count` after the whole loop of `merge`,
starting from `torch.zeros(h, w)`. -/
def resCount (l : List (NDTensor × Window)) : Nat → Nat → ℚ :=
  l.foldl (fun cnt pw => addCount cnt pw.2) fun _ _ => 0

/-- The sum buffer `res_img` after the whole loop of `merge`, starting
from `torch.zeros(b, c, h, w)`. -/
def resImg (l : List (NDTensor × Window)) : Nat → Nat → Nat → Nat → ℚ :=
  l.foldl addPred fun _ _ _ _ => 0

/-- The number of windows of the list that cover pixel `(y, x)`. -/
def countNat (l : List (NDTensor × Window)) (y x : Nat) : Nat :=
  l.countP fun pw => decide (inWin pw.2 y x)

/-- The contribution of one (prediction, window) pair to the sum buffer
at batch `bi`, channel `ci`, absolute pixel `(y, x)`. -/
def predContrib (pw : NDTensor × Window) (bi ci y x : Nat) : ℚ :=
  if inWin pw.2 y x then pw.1.data [bi, ci, y - pw.2.y1, x - pw.2.x1] else 0

/-- `SegmSlidingWinInference.merge`: unzips the (prediction, window)
list (a `ValueError` on the empty list, modelled as `none`), reads the
batch and class extents from the FIRST prediction, accumulates the sum
and count buffers over `(self._h, self._w)` (a `TypeError`, also
`none`, if those were never set), and returns the unconditional
elementwise division `res_img / res_count` with the count broadcast
across the batch and class dimensions.  As with `addPred`, predictions
are assumed shape-consistent with their window slices (the data
model's contract); the in-place add's shape errors on other inputs are
not modelled. -/
def merge (h? w? : Option Nat) (out_list : List (NDTensor × Window)) :
    Option FTensor :=
  match h?, w?, out_list with
  | some hh, some ww, p0 :: rest =>
    some { shape := [p0.1.shape.getD 0 0, p0.1.shape.getD 1 0, hh, ww],
           data := fun ix =>
             fdiv (resImg (p0 :: rest) (ix.getD 0 0) (ix.getD 1 0) (ix.getD 2 0) (ix.getD 3 0))
                  (resCount (p0 :: rest) (ix.getD 2 0) (ix.getD 3 0)) }
  | _, _, _ => none

/-- The Python exceptions the engine can raise. -/
inductive Err where
  | attributeError
  | assertionError (msg : String)
  | valueError
  | runtimeError (msg : String)
deriving DecidableEq, Repr

/-- The transform pipeline handed to `patch` (an arbitrary callable,
so it may raise). -/
abbrev PatchTransform := NDTensor → Except Err NDTensor

/-- The opaque model (an arbitrary callable, so it may raise). -/
abbrev Model := NDTensor → Except Err NDTensor

/-- The `wins` attribute: `unset` when `__init__` never created it
(accessing it raises `AttributeError`), otherwise the stored Python
value (`None` after consumption, or the planned window list). -/
inductive WinsField where
  | unset
  | saved (ws : Option (List Window))
deriving DecidableEq, Repr

/-- The mutable state of a `SegmSlidingWinInference` object: `__init__`
sets `_h = _w = None` and leaves `wins` (and `transforms`) uncreated. -/
structure SegmSlidingWinInference where
  wins : WinsField
  transforms : Option PatchTransform
  _h : Option Nat
  _w : Option Nat

/-- A freshly constructed engine (`SegmSlidingWinInference()`). -/
def SegmSlidingWinInference.init : SegmSlidingWinInference :=
  { wins := WinsField.unset, transforms := none, _h := none, _w := none }

/-- `image_np[y1:y2, x1:x2, :]`: spatial crop of the raw image, with
numpy's clamping of slice ends to the axis extents. -/
def cropPatch (img : NDTensor) (w : Window) : NDTensor :=
  { shape := [min w.y2 (img.shape.getD 0 0) - w.y1,
              min w.x2 (img.shape.getD 1 0) - w.x1] ++ img.shape.drop 2,
    data := fun ix =>
      match ix with
      | y :: x :: rest => img.data ((y + w.y1) :: (x + w.x1) :: rest)
      | _ => 0 }

/-- Tuple unpacking `h, w = l`: a `ValueError` (modelled as `none`)
unless the list has exactly two entries. -/
def unpack2 (l : List Nat) : Option (Nat × Nat) :=
  match l with
  | [a, b] => some (a, b)
  | _ => none

/-- The least multiple of `d` that is `≥ n` (for `d > 0`). -/
def divUp (n d : Nat) : Nat := (n + d - 1) / d * d

/-- Rounds the last two entries of a shape up to multiples of `d`. -/
def padLastTwo (s : List Nat) (d : Nat) : List Nat :=
  match s.reverse with
  | w :: h :: rest => (divUp w d :: divUp h d :: rest).reverse
  | _ => s

/-- Index `ix` lies inside shape `s`. -/
def inShape (s ix : List Nat) : Bool :=
  ix.length == s.length && (ix.zip s).all fun p => decide (p.1 < p.2)

/-- Modelled from the spec: `simplecv.preprocess.function.th_divisible_pad`
is external library code absent from this repository's sources.  Per the
spec (§4.2 and the glossary entry on divisibility padding), it enlarges
the patch's two spatial (last) extents to the nearest multiples of the
divisor, origin-anchored, keeping the original values in the unpadded
region. -/
def th_divisible_pad (t : NDTensor) (d : Nat) : NDTensor :=
  { shape := padLastTwo t.shape d,
    data := fun ix => if inShape t.shape ix then t.data ix else 0 }

/-- The output restore step `out[:, :, :h, :w]`: an `IndexError` if the
tensor has fewer than four dimensions, otherwise the origin-anchored
spatial crop (torch slices clamp to the extents). -/
def cropOut (t : NDTensor) (h w : Nat) : Except Err NDTensor :=
  match t.shape with
  | s0 :: s1 :: s2 :: s3 :: rest =>
    Except.ok { shape := s0 :: s1 :: min s2 h :: min s3 w :: rest, data := t.data }
  | _ => Except.error (Err.runtimeError "too few dimensions to index")

/-- `if self.transforms is not None: image = self.transforms(image)`. -/
def applyTransforms (t? : Option PatchTransform) (img : NDTensor) :
    Except Err NDTensor :=
  match t? with
  | none => Except.ok img
  | some t => t img

/-- One iteration of `_forward`'s window loop: crop the raw patch,
apply the transform pipeline, record the pre-pad spatial shape from
`image.shape[2:4]`, pad to the size divisor, invoke the model, and crop
the output back to the recorded shape.  Returns the produced prediction
(or the first error raised) together with the number of model
invocations performed (0 or 1). -/
def processWin (model : Model) (t? : Option PatchTransform) (image_np : NDTensor)
    (size_divisor : Option Nat) (win : Window) : Except Err NDTensor × Nat :=
  match applyTransforms t? (cropPatch image_np win) with
  | Except.error e => (Except.error e, 0)
  | Except.ok timg =>
    match unpack2 ((timg.shape.drop 2).take 2) with
    | none => (Except.error Err.valueError, 0)
    | some hw =>
      match model (match size_divisor with
                   | none => timg
                   | some d => th_divisible_pad timg d) with
      | Except.error e => (Except.error e, 1)
      | Except.ok out =>
        match size_divisor with
        | none => (Except.ok out, 1)
        | some _ =>
          match cropOut out hw.1 hw.2 with
          | Except.error e => (Except.error e, 1)
          | Except.ok out2 => (Except.ok out2, 1)

/-- The whole window loop of `_forward`: processes the windows strictly
in order, stopping at the first error; accumulates `out_list` and the
total number of model invocations. -/
def runLoop (model : Model) (t? : Option PatchTransform) (image_np : NDTensor)
    (size_divisor : Option Nat) :
    List Window → Except Err (List (NDTensor × Window)) × Nat
  | [] => (Except.ok [], 0)
  | win :: rest =>
    match processWin model t? image_np size_divisor win with
    | (Except.error e, n) => (Except.error e, n)
    | (Except.ok out, n) =>
      match runLoop model t? image_np size_divisor rest with
      | (Except.error e, m) => (Except.error e, n + m)
      | (Except.ok outs, m) => (Except.ok ((out, win) :: outs), n + m)

/-- `SegmSlidingWinInference._forward`: asserts that `wins` is present
and not `None` (an uncreated attribute raises `AttributeError`, a
consumed one raises the `AssertionError`), runs the window loop, clears
`self.wins` only after the loop has completed, and merges.  An error
inside the loop aborts the run and leaves `wins` untouched. -/
def SegmSlidingWinInference._forward (self : SegmSlidingWinInference) (model : Model)
    (image_np : NDTensor) (size_divisor : Option Nat) :
    Except Err FTensor × SegmSlidingWinInference × Nat :=
  match self.wins with
  | WinsField.unset => (Except.error Err.attributeError, self, 0)
  | WinsField.saved none =>
    (Except.error (Err.assertionError "patch must be performed before forward."), self, 0)
  | WinsField.saved (some ws) =>
    match runLoop model self.transforms image_np size_divisor ws with
    | (Except.error e, n) => (Except.error e, self, n)
    | (Except.ok outs, n) =>
      match merge self._h self._w outs with
      | some m =>
        (Except.ok m, { self with wins := WinsField.saved none }, n)
      | none =>
        (Except.error Err.valueError, { self with wins := WinsField.saved none }, n)

/-- `SegmSlidingWinInference.forward`: asserts on `wins` exactly as
`_forward` does, unpacks `self._h, self._w, _ = image_np.shape` (a
`ValueError` unless the image is 3-dimensional), and delegates to
`_forward`. -/
def SegmSlidingWinInference.forward (self : SegmSlidingWinInference) (model : Model)
    (image_np : NDTensor) (size_divisor : Option Nat) :
    Except Err FTensor × SegmSlidingWinInference × Nat :=
  match self.wins with
  | WinsField.unset => (Except.error Err.attributeError, self, 0)
  | WinsField.saved none =>
    (Except.error (Err.assertionError "patch must be performed before forward."), self, 0)
  | WinsField.saved (some _) =>
    match image_np.shape with
    | [hh, ww, _] =>
      SegmSlidingWinInference._forward
        { self with _h := some hh, _w := some ww } model image_np size_divisor
    | _ => (Except.error Err.valueError, self, 0)

/-- Modelled from the spec: the per-axis part of
`simplecv.data.preprocess.sliding_window`, which is external library
code absent from this repository's sources.  Per spec §4.1: candidate
starts `0, s, 2s, …` while `start + patch ≤ dim`, plus a final window
clamped to end exactly at `dim` when the division is inexact; a single
full-axis window when `patch ≥ dim`; a configuration error when the
stride exceeds the patch size without the patch covering the axis, or
when the stride is not positive. -/
def axisWindows (dim p s : Nat) : Except String (List (Nat × Nat)) :=
  if s = 0 then Except.error "stride must be positive"
  else if dim ≤ p then Except.ok [(0, dim)]
  else if p < s then
    Except.error "stride larger than patch size cannot guarantee coverage"
  else
    let starts := (List.range ((dim - p) / s + 1)).map fun k => k * s
    if (dim - p) % s = 0 then Except.ok (starts.map fun st => (st, st + p))
    else Except.ok (starts.map (fun st => (st, st + p)) ++ [(dim - p, dim)])

/-- Modelled from the spec: `sliding_window` combines the two axes'
windows in row-major order (spec §4.1). -/
def sliding_window (input_size patch_size : Nat × Nat) (stride : Nat) :
    Except String (List Window) :=
  match axisWindows input_size.1 patch_size.1 stride with
  | Except.error e => Except.error e
  | Except.ok yws =>
    match axisWindows input_size.2 patch_size.2 stride with
    | Except.error e => Except.error e
    | Except.ok xws =>
      Except.ok (yws.flatMap fun yw => xws.map fun xw =>
        { x1 := xw.1, y1 := yw.1, x2 := xw.2, y2 := yw.2 })

/-- `SegmSlidingWinInference.patch`: plans the windows via
`sliding_window` and stores them with the transform pipeline. -/
def SegmSlidingWinInference.patch (self : SegmSlidingWinInference)
    (input_size patch_size : Nat × Nat) (stride : Nat)
    (transforms : Option PatchTransform) :
    Except String SegmSlidingWinInference :=
  match sliding_window input_size patch_size stride with
  | Except.error e => Except.error e
  | Except.ok ws =>
    Except.ok { self with wins := WinsField.saved (some ws), transforms := transforms }

/-! ### Concrete fixtures used by the witnesses and counterexamples -/

/-- A placeholder prediction tensor used where only the windows matter. -/
def dummyPred : NDTensor :=
  { shape := [1, 1, 6, 6], data := fun _ => 0 }

/-- The window set of the spec's concrete scenario: `(H, W) = (10, 10)`,
`patch_size = (6, 6)`, `stride = 4`, windows given as `(x1, y1, x2, y2)`. -/
def c7List : List (NDTensor × Window) :=
  [(dummyPred, ⟨0, 0, 6, 6⟩), (dummyPred, ⟨4, 0, 10, 6⟩),
   (dummyPred, ⟨0, 4, 6, 10⟩), (dummyPred, ⟨4, 4, 10, 10⟩)]

/-- A single window that fails to cover pixel `(2, 2)` of a 3×3 extent. -/
def c1List : List (NDTensor × Window) :=
  [({ shape := [1, 1, 2, 2], data := fun _ => 1 }, ⟨0, 0, 2, 2⟩)]

/-- A single full-extent prediction with 3 class channels over 5×5. -/
def c2Pair : NDTensor × Window :=
  ({ shape := [1, 3, 5, 5], data := fun _ => 0 }, ⟨0, 0, 5, 5⟩)

def c2List : List (NDTensor × Window) := [c2Pair]

/-- Two overlapping windows over a 4×4 extent, with constant data 1
and 3 respectively, for the overlap-averaging witness. -/
def c3List : List (NDTensor × Window) :=
  [({ shape := [1, 1, 4, 4], data := fun _ => 1 }, ⟨0, 0, 4, 4⟩),
   ({ shape := [1, 1, 2, 4], data := fun _ => 3 }, ⟨0, 0, 4, 2⟩)]

/-- The full 4×4 window shared by the permutation fixtures. -/
def c8w : Window := ⟨0, 0, 4, 4⟩

/-- A two-channel prediction over the 4×4 extent. -/
def c8p2 : NDTensor := { shape := [1, 2, 4, 4], data := fun _ => 0 }

/-- Another two-channel prediction, with different data. -/
def c8p2b : NDTensor := { shape := [1, 2, 4, 4], data := fun _ => 1 }

def c8HomA : List (NDTensor × Window) := [(c8p2, c8w), (c8p2b, c8w)]

def c8HomB : List (NDTensor × Window) := [(c8p2b, c8w), (c8p2, c8w)]

/-- The single window used by the engine fixtures. -/
def win0 : Window := ⟨0, 0, 2, 2⟩

/-- A raw 2×2 image with 3 channels (`shape = (H, W, C)`). -/
def img3 : NDTensor := { shape := [2, 2, 3], data := fun _ => 0 }

/-- A transform pipeline producing a 4-D `(1, 1, h, w)` tensor whose
spatial extents are the raw patch's. -/
def constT : PatchTransform :=
  fun a => Except.ok
    { shape := [1, 1, a.shape.getD 0 0, a.shape.getD 1 0], data := fun _ => 1 }

/-- A transform pipeline with fixed 4-D output `(1, 1, 3, 3)`. -/
def constT6 : PatchTransform :=
  fun _ => Except.ok { shape := [1, 1, 3, 3], data := fun _ => 1 }

/-- The fixed output of `constT6`. -/
def timg6 : NDTensor := { shape := [1, 1, 3, 3], data := fun _ => 1 }

/-- The identity model. -/
def goodModel : Model := fun t => Except.ok t

/-- A model that always raises. -/
def badModel : Model := fun _ => Except.error (Err.runtimeError "CUDA error")

/-- An engine configured with one window over `img3` and the `constT`
transform (its `_h`/`_w` already equal the values `forward` records). -/
def engCfg : SegmSlidingWinInference :=
  { wins := WinsField.saved (some [win0]), transforms := some constT,
    _h := some 2, _w := some 2 }

/-- An engine configured with one window and `transforms = None`. -/
def engNoT : SegmSlidingWinInference :=
  { wins := WinsField.saved (some [win0]), transforms := none,
    _h := none, _w := none }

/-- Default tensor handed to `Option.getD` in witnesses. -/
def dfltF : FTensor := { shape := [], data := fun _ => FVal.nan }

/-- Default tensor handed to `Option.getD` in witnesses. -/
def dfltND : NDTensor := { shape := [], data := fun _ => 0 }

/-! ### Accumulation-buffer lemmas -/

theorem foldl_addCount_eq (l : List (NDTensor × Window)) (init : Nat → Nat → ℚ)
    (y x : Nat) :
    (l.foldl (fun cnt pw => addCount cnt pw.2) init) y x
      = init y x + (countNat l y x : ℚ) := by
  induction l generalizing init with
  | nil => simp [countNat]
  | cons p t ih =>
    rw [List.foldl_cons, ih]
    unfold addCount countNat
    rw [List.countP_cons]
    by_cases h : inWin p.2 y x
    · simp only [if_pos h, if_pos (decide_eq_true h)]
      push_cast
      ring
    · simp only [if_neg h, decide_eq_false h, Bool.false_eq_true, if_false]
      push_cast
      ring

theorem resCount_eq_countNat (l : List (NDTensor × Window)) (y x : Nat) :
    resCount l y x = (countNat l y x : ℚ) := by
  unfold resCount
  rw [foldl_addCount_eq]
  simp

theorem foldl_addPred_eq (l : List (NDTensor × Window))
    (init : Nat → Nat → Nat → Nat → ℚ) (bi ci y x : Nat) :
    (l.foldl addPred init) bi ci y x
      = init bi ci y x + (l.map (fun pw => predContrib pw bi ci y x)).sum := by
  induction l generalizing init with
  | nil => simp
  | cons p t ih =>
    rw [List.foldl_cons, ih, List.map_cons, List.sum_cons]
    unfold addPred predContrib
    by_cases h : inWin p.2 y x
    · simp only [if_pos h]
      ring
    · simp only [if_neg h]
      ring

theorem resImg_eq_sum (l : List (NDTensor × Window)) (bi ci y x : Nat) :
    resImg l bi ci y x = (l.map (fun pw => predContrib pw bi ci y x)).sum := by
  unfold resImg
  rw [foldl_addPred_eq]
  simp

/-! ### Claim C7 -/

/-- C7: for the concrete window set `(0,0,6,6), (4,0,10,6), (0,4,6,10),
(4,4,10,10)` over a 10×10 image, the count buffer built by `merge` is 4
on the central 2×2 region `[4,6)×[4,6)`, 2 on the remaining cross-shaped
bands where exactly one coordinate lies in `[4,6)`, and 1 on the four
exclusive corner regions. -/
theorem count_buffer_pattern : ∀ y, y < 10 → ∀ x, x < 10 →
    resCount c7List y x =
      if 4 ≤ y ∧ y < 6 ∧ 4 ≤ x ∧ x < 6 then 4
      else if (4 ≤ y ∧ y < 6) ∨ (4 ≤ x ∧ x < 6) then 2
      else 1 := by
  have hnat : ∀ y, y < 10 → ∀ x, x < 10 →
      countNat c7List y x =
        if 4 ≤ y ∧ y < 6 ∧ 4 ≤ x ∧ x < 6 then 4
        else if (4 ≤ y ∧ y < 6) ∨ (4 ≤ x ∧ x < 6) then 2
        else 1 := by decide
  intro y hy x hx
  rw [resCount_eq_countNat, hnat y hy x hx]
  split_ifs <;> norm_num

/-- C7 witness: the pattern evaluated at one concrete pixel of each of
the three kinds. -/
theorem count_buffer_pattern_witness :
    resCount c7List 5 5 = 4 ∧ resCount c7List 5 0 = 2 ∧ resCount c7List 0 0 = 1 := by
  refine ⟨?_, ?_, ?_⟩
  · have h := count_buffer_pattern 5 (by decide) 5 (by decide)
    simpa using h
  · have h := count_buffer_pattern 5 (by decide) 0 (by decide)
    simpa using h
  · have h := count_buffer_pattern 0 (by decide) 0 (by decide)
    simpa using h

/-! ### Shape of merge results -/

theorem merge_some_shape (h? w? : Option Nat) (l : List (NDTensor × Window))
    (m : FTensor) (hm : merge h? w? l = some m) :
    ∃ hh ww p0 rest, h? = some hh ∧ w? = some ww ∧ l = p0 :: rest ∧
      m.shape = [p0.1.shape.getD 0 0, p0.1.shape.getD 1 0, hh, ww] := by
  cases h? with
  | none => simp [merge] at hm
  | some hh =>
    cases w? with
    | none => simp [merge] at hm
    | some ww =>
      cases l with
      | nil => simp [merge] at hm
      | cons p0 rest =>
        refine ⟨hh, ww, p0, rest, rfl, rfl, rfl, ?_⟩
        have hm2 := Option.some.inj hm
        rw [← hm2]

/-! ### Claim C1 -/

/-- C1 (amended): `merge` never raises on a non-empty input list; when
some pixel of the extent is covered by no window (its count entry is
zero), the returned result simply holds NaN (`0/0`) at that pixel, in
every batch and class channel — no distinct error is surfaced. -/
theorem merge_zero_count_nan :
    (∀ (hh ww : Nat) (p0 : NDTensor × Window) (rest : List (NDTensor × Window)),
        (merge (some hh) (some ww) (p0 :: rest)).isSome = true) ∧
    (∀ (l : List (NDTensor × Window)) (hh ww : Nat) (m : FTensor) (bi ci y x : Nat),
        merge (some hh) (some ww) l = some m →
        countNat l y x = 0 →
        m.data [bi, ci, y, x] = FVal.nan) := by
  constructor
  · intro hh ww p0 rest
    rfl
  · intro l hh ww m bi ci y x hm hc
    cases l with
    | nil => simp [merge] at hm
    | cons p0 rest =>
      have hm2 := Option.some.inj hm
      rw [← hm2]
      show fdiv (resImg (p0 :: rest) bi ci y x) (resCount (p0 :: rest) y x) = FVal.nan
      have h0 : resCount (p0 :: rest) y x = 0 := by
        rw [resCount_eq_countNat, hc]
        norm_num
      have hnone : ∀ pw ∈ p0 :: rest, ¬ inWin pw.2 y x := by
        intro pw hpw
        have := List.countP_eq_zero.mp hc pw hpw
        simpa using this
      have h1 : resImg (p0 :: rest) bi ci y x = 0 := by
        rw [resImg_eq_sum]
        apply List.sum_eq_zero
        intro q hq
        obtain ⟨pw, hpw, hq2⟩ := List.mem_map.mp hq
        rw [← hq2]
        unfold predContrib
        rw [if_neg (hnone pw hpw)]
      rw [h0, h1]
      rfl

/-- C1 witness: for the single-window list leaving pixel `(2, 2)` of the
3×3 extent uncovered, the count there is zero and the merged result
holds NaN at that pixel. -/
theorem merge_zero_count_nan_witness :
    countNat c1List 2 2 = 0 ∧
    ((merge (some 3) (some 3) c1List).getD dfltF).data [0, 0, 2, 2] = FVal.nan :=
  ⟨by decide, merge_zero_count_nan.2 c1List 3 3 _ 0 0 2 2 rfl (by decide)⟩

/-- C1 counterexample: the claim says `merge` fails with a distinct
error whenever some pixel of the extent is uncovered; on this concrete
input with pixel `(2, 2)` uncovered, `merge` instead returns a result,
and that result holds NaN at the uncovered pixel. -/
theorem merge_zero_count_counterexample :
    (merge (some 3) (some 3) c1List).isSome = true ∧
    (merge (some 3) (some 3) c1List).map (fun m => m.data [0, 0, 2, 2])
      = some FVal.nan := ⟨rfl, rfl⟩

/-! ### Claim C2 -/

/-- C2 (amended): the merged tensor is 4-dimensional: its shape is
`(B, num_classes, H, W)` where `B` and `num_classes` are the batch and
channel extents of the FIRST per-window prediction and `(H, W)` are the
extents recorded by `forward` from the image — not the 3-dimensional
`(num_classes, H, W)` the claim states. -/
theorem merge_shape :
    (∀ (hh ww : Nat) (p0 : NDTensor × Window) (rest : List (NDTensor × Window))
        (m : FTensor),
        merge (some hh) (some ww) (p0 :: rest) = some m →
        m.shape = [p0.1.shape.getD 0 0, p0.1.shape.getD 1 0, hh, ww]) ∧
    (∀ (e : SegmSlidingWinInference) (model : Model) (img : NDTensor)
        (d : Option Nat) (hh ww cc : Nat) (m : FTensor)
        (e' : SegmSlidingWinInference) (n : Nat),
        img.shape = [hh, ww, cc] →
        e.forward model img d = (Except.ok m, e', n) →
        m.shape.length = 4 ∧ m.shape.getD 2 0 = hh ∧ m.shape.getD 3 0 = ww) := by
  constructor
  · intro hh ww p0 rest m hm
    obtain ⟨hh2, ww2, q0, rest2, h1, h2, h3, h4⟩ := merge_some_shape _ _ _ _ hm
    cases h1
    cases h2
    cases h3
    exact h4
  · intro e model img d hh ww cc m e' n hshape h
    obtain ⟨wf, tf, eh, ew⟩ := e
    cases wf with
    | unset => simp [SegmSlidingWinInference.forward] at h
    | saved o =>
      cases o with
      | none => simp [SegmSlidingWinInference.forward] at h
      | some ws =>
        dsimp only [SegmSlidingWinInference.forward] at h
        rw [hshape] at h
        dsimp only [SegmSlidingWinInference._forward] at h
        split at h
        · simp at h
        · rename_i outs nn hloop
          split at h
          · rename_i mm hmerge
            injection h with h1 h2
            injection h1 with h1
            subst h1
            obtain ⟨hh2, ww2, q0, rest2, e1, e2, e3, e4⟩ :=
              merge_some_shape _ _ _ _ hmerge
            cases e1
            cases e2
            rw [e4]
            exact ⟨rfl, rfl, rfl⟩
          · simp at h

/-- C2 witness: the amended shape law evaluated on the concrete
single-prediction list (batch 1, 3 classes, 5×5 extent) and on a
complete concrete `forward` run over the 2×2 image. -/
theorem merge_shape_witness :
    ((merge (some 5) (some 5) [c2Pair]).getD dfltF).shape
        = [c2Pair.1.shape.getD 0 0, c2Pair.1.shape.getD 1 0, 5, 5] ∧
    (((engCfg.forward goodModel img3 none).1.toOption.getD dfltF).shape.length = 4 ∧
      ((engCfg.forward goodModel img3 none).1.toOption.getD dfltF).shape.getD 2 0 = 2 ∧
      ((engCfg.forward goodModel img3 none).1.toOption.getD dfltF).shape.getD 3 0 = 2) :=
  ⟨merge_shape.1 5 5 c2Pair [] _ rfl,
   merge_shape.2 engCfg goodModel img3 none 2 2 3 _ _ _ rfl rfl⟩

/-- C2 counterexample: on a concrete successful input the merged tensor
has shape `[1, 3, 5, 5]` — four dimensions, with a leading batch
extent — not the claimed 3-dimensional `(num_classes, H, W) = [3, 5, 5]`. -/
theorem merge_shape_counterexample :
    (merge (some 5) (some 5) c2List).map FTensor.shape = some [1, 3, 5, 5] ∧
    some [1, 3, 5, 5] ≠ some ([3, 5, 5] : List Nat) :=
  ⟨rfl, by decide⟩

/-! ### Claim C3 -/

theorem sum_predContrib_filter (l : List (NDTensor × Window)) (bi ci y x : Nat) :
    (l.map (fun pw => predContrib pw bi ci y x)).sum
      = ((l.filter fun pw => decide (inWin pw.2 y x)).map
          (fun pw => pw.1.data [bi, ci, y - pw.2.y1, x - pw.2.x1])).sum := by
  induction l with
  | nil => rfl
  | cons p t ih =>
    rw [List.map_cons, List.sum_cons, ih, List.filter_cons]
    by_cases h : inWin p.2 y x
    · rw [if_pos (by simpa using h), List.map_cons, List.sum_cons]
      unfold predContrib
      rw [if_pos h]
    · rw [if_neg (by simpa using h)]
      unfold predContrib
      rw [if_neg h]
      ring

/-- C3: at every pixel `(y, x)` covered by exactly `k ≥ 1` of the
windows, the merged value in each batch/class channel is the finite
quotient of the sum of the covering predictions' values at that pixel
by `k` — the arithmetic mean of the `k` contributions. -/
theorem merge_overlap_mean :
    ∀ (l : List (NDTensor × Window)) (hh ww : Nat) (m : FTensor) (bi ci y x k : Nat),
      merge (some hh) (some ww) l = some m →
      countNat l y x = k → 1 ≤ k →
      m.data [bi, ci, y, x]
        = FVal.fin ((((l.filter fun pw => decide (inWin pw.2 y x)).map
            (fun pw => pw.1.data [bi, ci, y - pw.2.y1, x - pw.2.x1])).sum) / (k : ℚ)) := by
  intro l hh ww m bi ci y x k hm hc hk
  cases l with
  | nil => simp [merge] at hm
  | cons p0 rest =>
    have hm2 := Option.some.inj hm
    rw [← hm2]
    show fdiv (resImg (p0 :: rest) bi ci y x) (resCount (p0 :: rest) y x) = _
    rw [resCount_eq_countNat, hc, resImg_eq_sum, sum_predContrib_filter]
    unfold fdiv
    rw [if_neg (Nat.cast_ne_zero.mpr (Nat.one_le_iff_ne_zero.mp hk))]

/-- C3 witness: pixel `(0, 0)` of the two-window fixture is covered by
exactly 2 windows; the merged value there is the instantiated mean. -/
theorem merge_overlap_mean_witness :
    countNat c3List 0 0 = 2 ∧
    ((merge (some 4) (some 4) c3List).getD dfltF).data [0, 0, 0, 0]
      = FVal.fin ((((c3List.filter fun pw => decide (inWin pw.2 0 0)).map
          (fun pw => pw.1.data [0, 0, 0 - pw.2.y1, 0 - pw.2.x1])).sum)
            / ((2 : Nat) : ℚ)) :=
  ⟨by decide, merge_overlap_mean c3List 4 4 _ 0 0 0 0 2 rfl (by decide) (by decide)⟩

/-! ### Engine lifecycle lemmas -/

theorem runLoop_ok_ne_nil (model : Model) (t? : Option PatchTransform)
    (img : NDTensor) (d : Option Nat) (w : Window) (rest : List Window)
    (outs : List (NDTensor × Window)) (n : Nat)
    (h : runLoop model t? img d (w :: rest) = (Except.ok outs, n)) :
    outs ≠ [] := by
  dsimp only [runLoop] at h
  split at h
  · simp at h
  · rename_i out n1 hpw
    split at h
    · simp at h
    · rename_i outs2 m hrec
      injection h with h1 h2
      injection h1 with h1
      rw [← h1]
      simp

theorem forward_eq_ok_wins (e : SegmSlidingWinInference) (model : Model)
    (img : NDTensor) (d : Option Nat) (m : FTensor)
    (e' : SegmSlidingWinInference) (n : Nat)
    (h : e.forward model img d = (Except.ok m, e', n)) :
    e'.wins = WinsField.saved none := by
  obtain ⟨wf, tf, eh, ew⟩ := e
  cases wf with
  | unset => simp [SegmSlidingWinInference.forward] at h
  | saved o =>
    cases o with
    | none => simp [SegmSlidingWinInference.forward] at h
    | some ws =>
      dsimp only [SegmSlidingWinInference.forward] at h
      split at h
      · dsimp only [SegmSlidingWinInference._forward] at h
        split at h
        · simp at h
        · rename_i outs nn hloop
          split at h
          · rename_i mm hmerge
            injection h with h1 h2
            injection h2 with h2 h3
            rw [← h2]
          · simp at h
      · simp at h

/-! ### Claim C4 -/

/-- C4 (amended): invoking `forward` before any `patch` call raises an
`AttributeError` (the constructor never creates the `wins` attribute),
not the configuration `AssertionError`; invoking `forward` a second
time after a successful `forward`, with no intervening `patch`, raises
the configuration `AssertionError` because `wins` was cleared to `None`
on first consumption. -/
theorem forward_lifecycle :
    (∀ (model : Model) (img : NDTensor) (d : Option Nat),
        (SegmSlidingWinInference.init.forward model img d).1
          = Except.error Err.attributeError) ∧
    (∀ (e : SegmSlidingWinInference) (model : Model) (img : NDTensor) (d : Option Nat),
        (e.forward model img d).1.isOk = true →
        ∀ (model2 : Model) (img2 : NDTensor) (d2 : Option Nat),
          ((e.forward model img d).2.1.forward model2 img2 d2).1
            = Except.error
                (Err.assertionError "patch must be performed before forward.")) := by
  constructor
  · intro model img d
    rfl
  · intro e model img d hOk model2 img2 d2
    cases hE : (e.forward model img d).1 with
    | error er =>
      rw [hE] at hOk
      simp [Except.isOk, Except.toBool] at hOk
    | ok m =>
      have heq : e.forward model img d
          = (Except.ok m, (e.forward model img d).2.1, (e.forward model img d).2.2) := by
        rw [← hE]
      have hw := forward_eq_ok_wins e model img d m _ _ heq
      generalize (e.forward model img d).2.1 = e2 at hw ⊢
      obtain ⟨wf2, tf2, eh2, ew2⟩ := e2
      dsimp only at hw
      subst hw
      rfl

/-- C4 witness: the fresh engine's `forward` raises `AttributeError`;
after one successful `forward` on the configured fixture engine, a
second `forward` raises the configuration assertion. -/
theorem forward_lifecycle_witness :
    (SegmSlidingWinInference.init.forward goodModel img3 none).1
        = Except.error Err.attributeError ∧
    ((engCfg.forward goodModel img3 none).2.1.forward goodModel img3 none).1
        = Except.error (Err.assertionError "patch must be performed before forward.") :=
  ⟨forward_lifecycle.1 goodModel img3 none,
   forward_lifecycle.2 engCfg goodModel img3 none rfl goodModel img3 none⟩

/-- C4 counterexample: the claim says `forward` before any `patch` call
raises a configuration error; on a freshly constructed engine it
instead raises `AttributeError` (the `wins` attribute does not exist),
which is not the configuration assertion the code uses. -/
theorem forward_lifecycle_counterexample :
    (SegmSlidingWinInference.init.forward goodModel img3 none).1
        = Except.error Err.attributeError ∧
    Err.attributeError
        ≠ Err.assertionError "patch must be performed before forward." :=
  ⟨rfl, by decide⟩

/-! ### Claim C9 -/

/-- C9 (amended): an error raised during the run phase propagates
uncaught (the run aborts with exactly that error), but the engine
RETAINS its stored window set — `self.wins = None` runs only after the
loop completes — so `forward` can be retried WITHOUT a fresh `patch`
call, contrary to the claim's final clause. -/
theorem forward_error_keeps_windows :
    ∀ (e : SegmSlidingWinInference) (ws : List Window) (model : Model)
      (img : NDTensor) (d : Option Nat) (er : Err)
      (e' : SegmSlidingWinInference) (n : Nat),
      e.wins = WinsField.saved (some ws) → ws ≠ [] →
      e.forward model img d = (Except.error er, e', n) →
      e'.wins = WinsField.saved (some ws) := by
  intro e ws model img d er e' n hw hne h
  obtain ⟨wf, tf, eh, ew⟩ := e
  dsimp only at hw
  subst hw
  cases ws with
  | nil => exact absurd rfl hne
  | cons w0 wrest =>
    dsimp only [SegmSlidingWinInference.forward] at h
    split at h
    · dsimp only [SegmSlidingWinInference._forward] at h
      split at h
      · rename_i e2 nn hloop
        injection h with h1 h2
        injection h2 with h2 h3
        rw [← h2]
      · rename_i outs nn hloop
        split at h
        · simp at h
        · rename_i hmerge
          obtain ⟨o, rest', houts⟩ :=
            List.exists_cons_of_ne_nil
              (runLoop_ok_ne_nil model tf img d w0 wrest outs nn hloop)
          rw [houts] at hmerge
          simp [merge] at hmerge
    · injection h with h1 h2
      injection h2 with h2 h3
      rw [← h2]

/-- C9 witness: the configured fixture engine, run with a model that
raises, aborts with that error and keeps its window list stored. -/
theorem forward_error_keeps_windows_witness :
    ([win0] ≠ ([] : List Window)) ∧
    (engCfg.forward badModel img3 none).2.1.wins
        = WinsField.saved (some [win0]) :=
  ⟨by simp,
   forward_error_keeps_windows engCfg [win0] badModel img3 none
     (Err.runtimeError "CUDA error") (engCfg.forward badModel img3 none).2.1
     (engCfg.forward badModel img3 none).2.2 rfl (by simp) rfl⟩

/-- C9 counterexample: the claim says any run-phase error leaves the
engine requiring a fresh `patch` call before `forward` can be retried;
on this concrete input the first `forward` aborts with the model's
error, yet retrying `forward` immediately — with no `patch` call —
succeeds. -/
theorem forward_error_retry_counterexample :
    (engCfg.forward badModel img3 none).1
        = Except.error (Err.runtimeError "CUDA error") ∧
    ((engCfg.forward badModel img3 none).2.1.forward goodModel img3 none).1.isOk
        = true :=
  ⟨rfl, rfl⟩

/-! ### Claim C10 -/

/-- C10: with `transforms = None` (the planning call's default), every
`forward` on a 3-dimensional `(H, W, C)` image raises an error
(`ValueError`) before any model invocation: the bookkeeping
`h, w = image.shape[2:4]` unpacks a single value for an untransformed
3-dimensional patch. -/
theorem forward_no_transform_errors :
    ∀ (e : SegmSlidingWinInference) (ws : List Window) (model : Model)
      (img : NDTensor) (d : Option Nat) (hh ww cc : Nat),
      e.wins = WinsField.saved (some ws) → e.transforms = none →
      img.shape = [hh, ww, cc] →
      (e.forward model img d).1 = Except.error Err.valueError ∧
      (e.forward model img d).2.2 = 0 := by
  intro e ws model img d hh ww cc hw ht hs
  obtain ⟨wf, tf, eh, ew⟩ := e
  dsimp only at hw ht
  subst hw
  subst ht
  dsimp only [SegmSlidingWinInference.forward]
  rw [hs]
  cases ws with
  | nil => exact ⟨rfl, rfl⟩
  | cons w0 wrest =>
    dsimp only [SegmSlidingWinInference._forward, runLoop, processWin,
      applyTransforms]
    have hcrop : ((cropPatch img w0).shape.drop 2).take 2 = [cc] := by
      dsimp only [cropPatch]
      rw [hs]
      rfl
    rw [hcrop]
    exact ⟨rfl, rfl⟩

/-- C10 witness: the fixture engine configured with `transforms = None`
raises `ValueError` on the 3-dimensional image with zero model calls. -/
theorem forward_no_transform_errors_witness :
    img3.shape = [2, 2, 3] ∧
    (engNoT.forward goodModel img3 none).1 = Except.error Err.valueError ∧
    (engNoT.forward goodModel img3 none).2.2 = 0 :=
  ⟨rfl,
   (forward_no_transform_errors engNoT [win0] goodModel img3 none 2 2 3
      rfl rfl rfl).1,
   (forward_no_transform_errors engNoT [win0] goodModel img3 none 2 2 3
      rfl rfl rfl).2⟩

/-! ### Claim C5 -/

/-- C5: geometry that cannot guarantee coverage — a stride larger than
the patch size on an axis the patch does not already cover — is
rejected with an error by the planning call `patch` itself, before any
model is ever involved (`patch` takes no model or image).  The window
planner `sliding_window` is modelled from spec §4.1. -/
theorem patch_rejects_bad_geometry :
    ∀ (self : SegmSlidingWinInference) (ih iw ph pw s : Nat)
      (tr : Option PatchTransform),
      ((ph < s ∧ ph < ih) ∨ (pw < s ∧ pw < iw)) →
      ∃ msg, self.patch (ih, iw) (ph, pw) s tr = Except.error msg := by
  intro self ih iw ph pw s tr hbad
  have haxerr : ∀ dim p, p < s → p < dim →
      axisWindows dim p s
        = Except.error "stride larger than patch size cannot guarantee coverage" := by
    intro dim p h1 h2
    unfold axisWindows
    rw [if_neg (by omega : ¬ s = 0), if_neg (by omega : ¬ dim ≤ p), if_pos h1]
  rcases hbad with ⟨h1, h2⟩ | ⟨h1, h2⟩
  · refine ⟨"stride larger than patch size cannot guarantee coverage", ?_⟩
    unfold SegmSlidingWinInference.patch sliding_window
    dsimp only
    rw [haxerr ih ph h1 h2]
  · cases hy : axisWindows ih ph s with
    | error e =>
      refine ⟨e, ?_⟩
      unfold SegmSlidingWinInference.patch sliding_window
      dsimp only
      rw [hy]
    | ok yws =>
      refine ⟨"stride larger than patch size cannot guarantee coverage", ?_⟩
      unfold SegmSlidingWinInference.patch sliding_window
      dsimp only
      rw [hy, haxerr iw pw h1 h2]

/-- C5 witness: a 10×10 image with 3×3 patches and stride 5 is rejected
by the planning call. -/
theorem patch_rejects_bad_geometry_witness :
    ((3 < 5 ∧ 3 < 10) ∨ (3 < 5 ∧ 3 < 10)) ∧
    ∃ msg, SegmSlidingWinInference.init.patch (10, 10) (3, 3) 5 none
        = Except.error msg :=
  ⟨Or.inl (by decide),
   patch_rejects_bad_geometry SegmSlidingWinInference.init 10 10 3 3 5 none
     (Or.inl (by decide))⟩

/-! ### Claim C6 -/

/-- C6: with a size divisor configured, the run-phase step for a window
records the transformed patch's spatial shape `(ph, pw)` from
`image.shape[2:4]` BEFORE divisibility padding, and crops the model's
output back to exactly `(ph, pw)` before appending it for accumulation
(given the model does not shrink its input's spatial extents, per spec
§6).  The divisibility-padding helper is modelled from spec §4.2. -/
theorem forward_prepad_crop :
    ∀ (model : Model) (tr : PatchTransform) (img : NDTensor) (d : Nat)
      (win : Window) (timg mout out : NDTensor)
      (s0 s1 ph pw m0 m1 mh mw n : Nat),
      tr (cropPatch img win) = Except.ok timg →
      timg.shape = [s0, s1, ph, pw] →
      model (th_divisible_pad timg d) = Except.ok mout →
      mout.shape = [m0, m1, mh, mw] →
      ph ≤ mh → pw ≤ mw →
      processWin model (some tr) img (some d) win = (Except.ok out, n) →
      out.shape = [m0, m1, ph, pw] ∧ n = 1 ∧
        ph = timg.shape.getD 2 0 ∧ pw = timg.shape.getD 3 0 := by
  intro model tr img d win timg mout out s0 s1 ph pw m0 m1 mh mw n
    htr hts hmo hms hph hpw hp
  have hcomp : processWin model (some tr) img (some d) win
      = (Except.ok { shape := [m0, m1, min mh ph, min mw pw], data := mout.data },
         1) := by
    unfold processWin applyTransforms
    dsimp only
    rw [htr]
    dsimp only
    rw [hts]
    rw [show unpack2 (List.take 2 (List.drop 2 ([s0, s1, ph, pw] : List Nat)))
        = some (ph, pw) from rfl]
    dsimp only
    rw [hmo]
    dsimp only [cropOut]
    rw [hms]
  rw [hcomp] at hp
  injection hp with hp1 hp2
  injection hp1 with hp1
  refine ⟨?_, hp2.symm, ?_, ?_⟩
  · rw [← hp1]
    dsimp only
    rw [Nat.min_eq_right hph, Nat.min_eq_right hpw]
  · rw [hts]
    rfl
  · rw [hts]
    rfl

/-- C6 witness: a concrete window step with divisor 2 — the transform
yields a `(1, 1, 3, 3)` patch, padding takes it to `(1, 1, 4, 4)`, the
(identity) model returns that padded extent, and the appended output is
cropped back to the recorded pre-pad `(3, 3)`. -/
theorem forward_prepad_crop_witness :
    ((processWin goodModel (some constT6) img3 (some 2) win0).1.toOption.getD
        dfltND).shape = [1, 1, 3, 3] ∧ (1 : Nat) = 1 ∧
      (3 : Nat) = timg6.shape.getD 2 0 ∧ (3 : Nat) = timg6.shape.getD 3 0 :=
  forward_prepad_crop goodModel constT6 img3 2 win0 timg6
    (th_divisible_pad timg6 2) _ 1 1 3 3 1 1 4 4 1
    rfl rfl rfl rfl (by decide) (by decide) rfl

/-! ### Claim C8 -/

/-- C8: `merge` is invariant under permutation of the (prediction,
window) list — the merged result is identical (exact-arithmetic model
of bit-identical).  The predictions share their batch and channel
extents, the context the data model guarantees (every prediction has
`num_classes` channels; mismatched extents are not valid inputs to the
accumulation's in-place slice-add). -/
theorem merge_perm :
    ∀ (l l' : List (NDTensor × Window)) (hh ww : Nat),
      l.Perm l' →
      (∀ pw ∈ l, ∀ qw ∈ l,
          pw.1.shape.getD 0 0 = qw.1.shape.getD 0 0 ∧
          pw.1.shape.getD 1 0 = qw.1.shape.getD 1 0) →
      merge (some hh) (some ww) l = merge (some hh) (some ww) l' := by
  intro l l' hh ww hperm hhom
  have hcnt : ∀ y x, countNat l y x = countNat l' y x := by
    intro y x
    exact hperm.countP_eq _
  have hsum : ∀ bi ci y x,
      (l.map (fun pw => predContrib pw bi ci y x)).sum
        = (l'.map (fun pw => predContrib pw bi ci y x)).sum := by
    intro bi ci y x
    exact (hperm.map _).sum_eq
  cases l with
  | nil =>
    have : l' = [] := hperm.symm.eq_nil
    rw [this]
  | cons p rest =>
    cases l' with
    | nil => simp at hperm
    | cons q rest' =>
      have hq : q ∈ p :: rest := hperm.mem_iff.mpr (List.mem_cons_self q rest')
      have hp : p ∈ p :: rest := List.mem_cons_self p rest
      obtain ⟨hb, hc⟩ := hhom p hp q hq
      refine congrArg some (FTensor.ext ?_ ?_)
      · dsimp only
        rw [hb, hc]
      · funext ix
        dsimp only
        rw [resImg_eq_sum, resImg_eq_sum, resCount_eq_countNat,
          resCount_eq_countNat, hsum, hcnt]

/-- C8 witness: swapping the two (same-extent) predictions of the
homogeneous fixture leaves the merged result bit-identical. -/
theorem merge_perm_witness :
    c8HomA.Perm c8HomB ∧
    (∀ pw ∈ c8HomA, ∀ qw ∈ c8HomA,
        pw.1.shape.getD 0 0 = qw.1.shape.getD 0 0 ∧
        pw.1.shape.getD 1 0 = qw.1.shape.getD 1 0) ∧
    merge (some 4) (some 4) c8HomA = merge (some 4) (some 4) c8HomB :=
  ⟨List.Perm.swap (c8p2b, c8w) (c8p2, c8w) [], by decide,
   merge_perm c8HomA c8HomB 4 4
     (List.Perm.swap (c8p2b, c8w) (c8p2, c8w) []) (by decide)⟩

end IsaidEval
